import Mathlib

/-
Verification of the page-props resolution flow of the Sitecore JSS Next.js
sample (lib/page-props-factory.ts): `extractPath`, `isServerSidePropsContext`
and `SitecorePagePropsFactory.create`, shallowly embedded over explicit
oracle results for the external services (session lookup, editing-data
service, layout service, dictionary service, component-props service).
-/

deriving instance DecidableEq for Except

namespace SitecoreJss

/-- A value of Node's `ParsedUrlQuery`: a route parameter is either a single
string or an array of string segments. -/
inductive QueryValue where
  | single : String → QueryValue
  | multi : List String → QueryValue
deriving DecidableEq

/-- The route-parameter bag; `extractPath` only reads its `path` entry, which
may be absent (`undefined`). -/
structure ParsedUrlQuery where
  path : Option QueryValue
deriving DecidableEq

/-- JS `path.startsWith('/')`: the first character is a slash. -/
def startsWithSlash (s : String) : Bool :=
  s.data.head? == some '/'

/-- The raw path computed by `extractPath` before the leading-slash fixup:
`Array.isArray(params.path) ? params.path.join('/') : params.path ?? '/'`. -/
def rawPath (params : ParsedUrlQuery) : String :=
  match params.path with
  | some (QueryValue.multi xs) => String.intercalate "/" xs
  | some (QueryValue.single s) => s
  | none => "/"

/-- The function `extractPath(params)`: normalized Sitecore item path from the query.
Absent bag resolves to "/", an array joins with "/", and a missing leading
slash is prepended. -/
def extractPath (params : Option ParsedUrlQuery) : String :=
  match params with
  | none => "/"
  | some p =>
    let path := rawPath p
    if startsWithSlash path then path else "/" ++ path

/-- Whether a list of characters contains two consecutive slashes. -/
def hasDoubleSlashAux : List Char → Bool
  | a :: b :: rest => (a == '/' && b == '/') || hasDoubleSlashAux (b :: rest)
  | _ => false

/-- Whether a string contains a duplicate (double) slash. -/
def hasDoubleSlash (s : String) : Bool :=
  hasDoubleSlashAux s.data

theorem data_append (s t : String) : (s ++ t).data = s.data ++ t.data := rfl

theorem hasDoubleSlash_slash_append (s : String) (h : startsWithSlash s = false) :
    hasDoubleSlash ("/" ++ s) = hasDoubleSlash s := by
  unfold startsWithSlash at h
  unfold hasDoubleSlash
  have hdata : ("/" ++ s).data = '/' :: s.data := by rw [data_append]; rfl
  rw [hdata]
  cases hs : s.data with
  | nil => rfl
  | cons c rest =>
    rw [hs] at h
    have hc : ¬(c = '/') := by
      intro hceq
      subst hceq
      simp at h
    show hasDoubleSlashAux ('/' :: c :: rest) = hasDoubleSlashAux (c :: rest)
    simp [hasDoubleSlashAux, hc]

/-- The route payload of layout data: `itemId` (possibly absent) plus other
route content, kept opaque as `name`. -/
structure RouteData where
  itemId : Option String
  name : String
deriving DecidableEq

/-- A JS value appearing in the context payload: strings, numbers, `undefined`
and the route payload itself. -/
inductive JsValue where
  | vStr : String → JsValue
  | vNat : Nat → JsValue
  | vUndef : JsValue
  | vRoute : RouteData → JsValue
deriving DecidableEq

/-- A JS object as an ordered key-value list with distinct keys maintained by
`setKey` (assignment/spread semantics). -/
abbrev JsObject := List (String × JsValue)

/-- The node `layoutData.sitecore`: a nullable `route` payload and the auxiliary
`context` bag of arbitrary route metadata. -/
structure SitecoreData where
  route : Option RouteData
  context : JsObject
deriving DecidableEq

/-- The `LayoutServiceData` from the vendor SDK, as used here: the `sitecore`
node. -/
structure LayoutServiceData where
  sitecore : SitecoreData
deriving DecidableEq

/-- The `DictionaryPhrases` mapping: phrase key to translated string. -/
abbrev DictionaryPhrases := List (String × String)

/-- Editing data returned by `editingDataService.getEditingData`. -/
structure EditingData where
  language : String
  layoutData : LayoutServiceData
  dictionary : DictionaryPhrases
deriving DecidableEq

/-- An error thrown by `fetchLayoutData`: `error.response?.status` (absent when
the error carries no HTTP response) plus an opaque message. -/
structure LayoutError where
  status : Option Nat
  message : String
deriving DecidableEq

/-- A session handle from `getSession`, kept opaque. -/
abbrev Session := String

/-- The render context, `GetServerSidePropsContext | GetStaticPropsContext`:
`req`/`res` are defined exactly on the server-side (request-time) variant. -/
structure NextContext where
  preview : Bool
  previewData : Option String
  params : Option ParsedUrlQuery
  locale : Option String
  req : Option Nat
  res : Option Nat
deriving DecidableEq

/-- The helper `isServerSidePropsContext`: discriminates the SSR variant by
`context.req !== undefined`. -/
def isServerSidePropsContext (context : NextContext) : Bool :=
  context.req.isSome

/-- JS property assignment on an object: update the value in place when the
key exists, append otherwise. -/
def setKey : JsObject → String → JsValue → JsObject
  | [], k, v => [(k, v)]
  | (k', v') :: rest, k, v =>
    if k' = k then (k', v) :: rest else (k', v') :: setKey rest k v

/-- JS object spread `{...base, ...ext}`: entries of `ext` are assigned onto
`base` left to right, later entries overwriting earlier ones. -/
def spreadObj (base ext : JsObject) : JsObject :=
  ext.foldl (fun acc kv => setKey acc kv.1 kv.2) base

/-- Look up a key in a JS object (first matching entry). -/
def getKey (k : String) : JsObject → Option JsValue
  | [] => none
  | (k', v) :: rest => if k' = k then some v else getKey k rest

/-- The value `route?.itemId` as a JS value: `undefined` when the field is absent. -/
def jsOfOptStr : Option String → JsValue
  | some s => JsValue.vStr s
  | none => JsValue.vUndef

/-- The context payload built by `create` when a route is present:
`{ route: layoutData.sitecore.route, itemId: route?.itemId,
...layoutData.sitecore.context }`. -/
def buildSitecoreContext (route : RouteData) (contextBag : JsObject) : JsObject :=
  spreadObj [("route", JsValue.vRoute route), ("itemId", jsOfOptStr route.itemId)] contextBag

/-- The `SitecorePageProps` struct as returned by `create`. -/
structure SitecorePageProps where
  locale : String
  dictionary : DictionaryPhrases
  sitecoreContext : Option JsObject
  componentProps : JsObject
  notFound : Bool
  unauthorized : Bool
deriving DecidableEq

/-- An error with which `create` rejects: the editing-data `Error`, or a
layout-fetch error rethrown unchanged. -/
inductive CreateError where
  | editingDataMissing : Option String → CreateError
  | layoutError : LayoutError → CreateError
deriving DecidableEq

/-- Observable steps performed by `create`, in order. -/
inductive Event where
  | getSessionCall : Event
  | getEditingDataCall : Option String → Event
  | extractPathCall : Option ParsedUrlQuery → Event
  | fetchLayoutCall : Bool → String → String → Option Nat → Option Nat → Event
  | fetchDictionaryCall : String → Event
  | fetchServerSidePropsCall : Event
  | fetchStaticPropsCall : Event
deriving DecidableEq

/-- Per-call results of the external services `create` consumes. The layout
service takes the session it was (re)created with: `none` means the default
service from `layoutServiceFactory.create()`. -/
structure Services where
  session : Option Session
  getEditingData : Option String → Option EditingData
  fetchLayoutData : Option Session → String → String → Option Nat → Option Nat →
    Except LayoutError LayoutServiceData
  fetchDictionaryData : String → DictionaryPhrases
  fetchServerSideComponentProps : LayoutServiceData → NextContext → JsObject
  fetchStaticComponentProps : LayoutServiceData → NextContext → JsObject

/-- Outcome of one `create` call: the settled promise plus the trace of
service calls made (also on rejection). -/
structure CreateResult where
  result : Except CreateError SitecorePageProps
  events : List Event
deriving DecidableEq

/-- Modelled from the spec: the statically configured default locale,
`pkg.config.language` of package.json (file not included in the sources);
the claims do not depend on its value. -/
def pkgConfigLanguage : String := "en"

/-- The resolved locale, `context.locale ?? pkg.config.language`. -/
def localeOf (context : NextContext) : String :=
  context.locale.getD pkgConfigLanguage

/-- The exact layout-service call `create` makes in normal mode:
`fetchLayoutData(path, locale, req?, res?)` on the (possibly
session-reconfigured) layout service. -/
def layoutCallOf (svc : Services) (context : NextContext) :
    Except LayoutError LayoutServiceData :=
  svc.fetchLayoutData svc.session (extractPath context.params) (localeOf context)
    (if isServerSidePropsContext context then context.req else none)
    (if isServerSidePropsContext context then context.res else none)

/-- The tail of `create` shared by both branches: build `sitecoreContext` and
fetch component props when a route is present, then assemble the result. -/
def finishCreate (svc : Services) (context : NextContext) (locale : String)
    (layoutData : Option LayoutServiceData) (dictionary : DictionaryPhrases)
    (notFound unauthorized : Bool) (events : List Event) : CreateResult :=
  match layoutData with
  | some ld =>
    match ld.sitecore.route with
    | some route =>
      let sitecoreContext := buildSitecoreContext route ld.sitecore.context
      if isServerSidePropsContext context then
        { result := Except.ok
            { locale := locale, dictionary := dictionary,
              sitecoreContext := some sitecoreContext,
              componentProps := svc.fetchServerSideComponentProps ld context,
              notFound := notFound, unauthorized := unauthorized },
          events := events ++ [Event.fetchServerSidePropsCall] }
      else
        { result := Except.ok
            { locale := locale, dictionary := dictionary,
              sitecoreContext := some sitecoreContext,
              componentProps := svc.fetchStaticComponentProps ld context,
              notFound := notFound, unauthorized := unauthorized },
          events := events ++ [Event.fetchStaticPropsCall] }
    | none =>
      { result := Except.ok
          { locale := locale, dictionary := dictionary, sitecoreContext := none,
            componentProps := [], notFound := notFound, unauthorized := unauthorized },
        events := events }
  | none =>
    { result := Except.ok
        { locale := locale, dictionary := dictionary, sitecoreContext := none,
          componentProps := [], notFound := notFound, unauthorized := unauthorized },
      events := events }

/-- The rest of the normal branch after the layout fetch settles: the
missing-route check (`if (!layoutData?.sitecore.route) notFound = true`) and
the unconditional dictionary fetch, then the shared tail. -/
def normalFinish (svc : Services) (context : NextContext) (locale : String)
    (layoutData : Option LayoutServiceData) (notFound0 unauthorized : Bool)
    (events : List Event) : CreateResult :=
  let routeMissing : Bool :=
    match layoutData with
    | none => true
    | some ld => ld.sitecore.route.isNone
  let notFound := notFound0 || routeMissing
  let dictionary := svc.fetchDictionaryData locale
  finishCreate svc context locale layoutData dictionary notFound unauthorized
    (events ++ [Event.fetchDictionaryCall locale])

/-- The trace of the preview branch up to the editing-data lookup. -/
def previewEvents (context : NextContext) : List Event :=
  [Event.getSessionCall, Event.getEditingDataCall context.previewData]

/-- The trace of the normal branch up to the layout fetch. -/
def normalEvents (svc : Services) (context : NextContext) : List Event :=
  [Event.getSessionCall, Event.extractPathCall context.params,
   Event.fetchLayoutCall svc.session.isSome (extractPath context.params) (localeOf context)
     (if isServerSidePropsContext context then context.req else none)
     (if isServerSidePropsContext context then context.res else none)]

/-- The method `SitecorePagePropsFactory.create(context)` over the per-call service
results `svc`. -/
def create (svc : Services) (context : NextContext) : CreateResult :=
  if context.preview then
    match svc.getEditingData context.previewData with
    | none =>
      { result := Except.error (CreateError.editingDataMissing context.previewData),
        events := previewEvents context }
    | some data =>
      finishCreate svc context data.language (some data.layoutData) data.dictionary
        false false (previewEvents context)
  else
    match layoutCallOf svc context with
    | Except.error e =>
      if e.status = some 404 then
        normalFinish svc context (localeOf context) none true false
          (normalEvents svc context)
      else if e.status = some 401 then
        normalFinish svc context (localeOf context) none false true
          (normalEvents svc context)
      else
        { result := Except.error (CreateError.layoutError e),
          events := normalEvents svc context }
    | Except.ok ld =>
      normalFinish svc context (localeOf context) (some ld) false false
        (normalEvents svc context)

/-- The layout data a resolution adopts: the editing data's `layoutData` in
preview mode, the layout-fetch result in normal mode, `none` when the fetch
failed or editing data was missing. -/
def layoutDataOf (svc : Services) (context : NextContext) : Option LayoutServiceData :=
  if context.preview then
    (svc.getEditingData context.previewData).map EditingData.layoutData
  else
    match layoutCallOf svc context with
    | Except.ok ld => some ld
    | Except.error _ => none

theorem getKey_setKey_self (obj : JsObject) (k : String) (v : JsValue) :
    getKey k (setKey obj k v) = some v := by
  induction obj with
  | nil => simp [setKey, getKey]
  | cons p rest ih =>
    obtain ⟨k0, v0⟩ := p
    by_cases h0 : k0 = k
    · simp [setKey, h0, getKey]
    · simp [setKey, h0, getKey, ih]

theorem getKey_setKey_ne (obj : JsObject) (k k' : String) (v : JsValue)
    (h : ¬(k' = k)) : getKey k (setKey obj k' v) = getKey k obj := by
  induction obj with
  | nil => simp [setKey, getKey, h]
  | cons p rest ih =>
    obtain ⟨k0, v0⟩ := p
    by_cases h0 : k0 = k'
    · subst h0
      simp [setKey, getKey, h]
    · have h' : ¬(k = k') := fun he => h he.symm
      by_cases hk : k0 = k
      · simp [setKey, h0, h', getKey, hk]
      · simp [setKey, h0, h', getKey, hk, ih]

theorem getKey_append (k : String) (l l' : JsObject) :
    getKey k (l ++ l') =
      match getKey k l with
      | some v => some v
      | none => getKey k l' := by
  induction l with
  | nil => simp [getKey]
  | cons p rest ih =>
    obtain ⟨k0, v0⟩ := p
    by_cases hk : k0 = k
    · simp [getKey, hk]
    · simp [getKey, hk, ih]

theorem spreadObj_cons (base : JsObject) (p : String × JsValue) (ext : JsObject) :
    spreadObj base (p :: ext) = spreadObj (setKey base p.1 p.2) ext := rfl

/-- Looking up a key after a spread: the last occurrence in the spread bag
wins, falling back to the base object. -/
theorem getKey_spreadObj (k : String) (base ext : JsObject) :
    getKey k (spreadObj base ext) =
      match getKey k ext.reverse with
      | some v => some v
      | none => getKey k base := by
  induction ext generalizing base with
  | nil => simp [spreadObj, getKey]
  | cons p rest ih =>
    obtain ⟨k0, v0⟩ := p
    rw [spreadObj_cons, ih, List.reverse_cons, getKey_append]
    cases hrev : getKey k rest.reverse with
    | some v => simp
    | none =>
      simp only []
      by_cases hk : k0 = k
      · subst hk
        simp [getKey, getKey_setKey_self]
      · simp [getKey, hk, getKey_setKey_ne _ _ _ _ hk]

theorem finishCreate_ssr (svc : Services) (context : NextContext) (locale : String)
    (ld : LayoutServiceData) (dictionary : DictionaryPhrases)
    (notFound unauthorized : Bool) (events : List Event) (route : RouteData)
    (hroute : ld.sitecore.route = some route)
    (hssr : isServerSidePropsContext context = true) :
    finishCreate svc context locale (some ld) dictionary notFound unauthorized events =
      { result := Except.ok
          { locale := locale, dictionary := dictionary,
            sitecoreContext := some (buildSitecoreContext route ld.sitecore.context),
            componentProps := svc.fetchServerSideComponentProps ld context,
            notFound := notFound, unauthorized := unauthorized },
        events := events ++ [Event.fetchServerSidePropsCall] } := by
  simp [finishCreate, hroute, hssr]

theorem finishCreate_ssg (svc : Services) (context : NextContext) (locale : String)
    (ld : LayoutServiceData) (dictionary : DictionaryPhrases)
    (notFound unauthorized : Bool) (events : List Event) (route : RouteData)
    (hroute : ld.sitecore.route = some route)
    (hssr : isServerSidePropsContext context = false) :
    finishCreate svc context locale (some ld) dictionary notFound unauthorized events =
      { result := Except.ok
          { locale := locale, dictionary := dictionary,
            sitecoreContext := some (buildSitecoreContext route ld.sitecore.context),
            componentProps := svc.fetchStaticComponentProps ld context,
            notFound := notFound, unauthorized := unauthorized },
        events := events ++ [Event.fetchStaticPropsCall] } := by
  simp [finishCreate, hroute, hssr]

theorem finishCreate_noroute (svc : Services) (context : NextContext) (locale : String)
    (ld : LayoutServiceData) (dictionary : DictionaryPhrases)
    (notFound unauthorized : Bool) (events : List Event)
    (hroute : ld.sitecore.route = none) :
    finishCreate svc context locale (some ld) dictionary notFound unauthorized events =
      { result := Except.ok
          { locale := locale, dictionary := dictionary, sitecoreContext := none,
            componentProps := [], notFound := notFound, unauthorized := unauthorized },
        events := events } := by
  simp [finishCreate, hroute]

theorem finishCreate_none (svc : Services) (context : NextContext) (locale : String)
    (dictionary : DictionaryPhrases)
    (notFound unauthorized : Bool) (events : List Event) :
    finishCreate svc context locale none dictionary notFound unauthorized events =
      { result := Except.ok
          { locale := locale, dictionary := dictionary, sitecoreContext := none,
            componentProps := [], notFound := notFound, unauthorized := unauthorized },
        events := events } := by
  simp [finishCreate]

/-- A service bundle whose layout fetch always fails with HTTP status 401. -/
def svc401 : Services :=
  { session := none,
    getEditingData := fun _ => none,
    fetchLayoutData := fun _ _ _ _ _ =>
      Except.error { status := some 401, message := "unauthorized" },
    fetchDictionaryData := fun _ => [("k", "v")],
    fetchServerSideComponentProps := fun _ _ => [],
    fetchStaticComponentProps := fun _ _ => [] }

/-- A plain normal-mode (non-preview) build-time context. -/
def ctx401 : NextContext :=
  { preview := false, previewData := none, params := none, locale := some "en",
    req := none, res := none }

/-- Claim C1 (code bug): when the layout fetch fails with HTTP status 401,
`create` sets `unauthorized = true` but ALSO `notFound = true`, because the
null layout data makes the subsequent missing-route check
`if (!layoutData?.sitecore.route) notFound = true` fire; the documented
invariant that the two flags are never both true is violated. -/
theorem create_401_sets_both_flags :
    (create svc401 ctx401).result = Except.ok
      { locale := "en", dictionary := [("k", "v")], sitecoreContext := none,
        componentProps := [], notFound := true, unauthorized := true } := by decide

/-- Claim C2: in normal mode, a layout fetch failing with status 404 is
recovered into `notFound = true`, `unauthorized = false`,
`sitecoreContext = null`, and the dictionary fetch for the resolved locale is
still performed before returning. -/
theorem create_404_recovery (svc : Services) (context : NextContext)
    (e : LayoutError)
    (hprev : context.preview = false)
    (hcall : layoutCallOf svc context = Except.error e)
    (hstatus : e.status = some 404) :
    (create svc context).result = Except.ok
      { locale := localeOf context,
        dictionary := svc.fetchDictionaryData (localeOf context),
        sitecoreContext := none, componentProps := [],
        notFound := true, unauthorized := false } ∧
    Event.fetchDictionaryCall (localeOf context) ∈ (create svc context).events := by
  constructor <;> simp [create, hprev, hcall, hstatus, normalFinish, finishCreate]

/-- A service bundle whose layout fetch always fails with HTTP status 404. -/
def svc404 : Services :=
  { svc401 with
    fetchLayoutData := fun _ _ _ _ _ =>
      Except.error { status := some 404, message := "not found" } }

theorem create_404_recovery_witness :
    ctx401.preview = false ∧
    layoutCallOf svc404 ctx401 = Except.error { status := some 404, message := "not found" } ∧
    (create svc404 ctx401).result = Except.ok
      { locale := "en", dictionary := [("k", "v")], sitecoreContext := none,
        componentProps := [], notFound := true, unauthorized := false } ∧
    Event.fetchDictionaryCall "en" ∈ (create svc404 ctx401).events := by
  have h := create_404_recovery svc404 ctx401
    { status := some 404, message := "not found" } rfl rfl rfl
  exact ⟨rfl, rfl, h.1, h.2⟩

/-- The path parameter "a//b": missing a leading slash and containing a
duplicate slash. -/
def dupSlashQuery : ParsedUrlQuery := { path := some (QueryValue.single "a//b") }

/-- Claim C3 (counterexample): the path parameter "a//b" is missing a leading
slash, and the resolved path "/a//b" does contain duplicate slashes — the code
never deduplicates slashes inside the parameter. -/
theorem extractPath_dupslash_cex :
    startsWithSlash (rawPath dupSlashQuery) = false ∧
    extractPath (some dupSlashQuery) = "/a//b" ∧
    hasDoubleSlash (extractPath (some dupSlashQuery)) = true := by decide

/-- Claim C3 (amended): an absent route-parameter bag resolves to "/"; the
segment sequence ["a","b"] resolves to "/a/b"; and for any path parameter
missing a leading slash the resolved path is exactly "/" prepended to it —
it gains exactly one leading slash and the prepending introduces no duplicate
slash (the result has a duplicate slash precisely when the parameter already
had one). -/
theorem extractPath_spec :
    extractPath none = "/" ∧
    extractPath (some { path := some (QueryValue.multi ["a", "b"]) }) = "/a/b" ∧
    ∀ p : ParsedUrlQuery, startsWithSlash (rawPath p) = false →
      extractPath (some p) = "/" ++ rawPath p ∧
      startsWithSlash (extractPath (some p)) = true ∧
      hasDoubleSlash (extractPath (some p)) = hasDoubleSlash (rawPath p) := by
  refine ⟨by decide, by decide, ?_⟩
  intro p h
  have he : extractPath (some p) = "/" ++ rawPath p := by
    simp [extractPath, h]
  refine ⟨he, ?_, ?_⟩
  · rw [he]
    show (("/" ++ rawPath p).data.head? == some '/') = true
    rw [data_append]
    rfl
  · rw [he, hasDoubleSlash_slash_append _ h]

/-- The path parameter "about", missing its leading slash. -/
def plainQuery : ParsedUrlQuery := { path := some (QueryValue.single "about") }

theorem extractPath_spec_witness :
    startsWithSlash (rawPath plainQuery) = false ∧
    extractPath (some plainQuery) = "/about" :=
  ⟨by decide, by
    have h := extractPath_spec.2.2 plainQuery (by decide)
    exact h.1.trans (by decide)⟩

/-- Claim C4: in preview mode, when the editing-data lookup returns null,
`create` rejects with the editing-data error instead of returning a result. -/
theorem create_preview_missing_editing_data (svc : Services) (context : NextContext)
    (hprev : context.preview = true)
    (hdata : svc.getEditingData context.previewData = none) :
    (create svc context).result =
      Except.error (CreateError.editingDataMissing context.previewData) := by
  simp [create, hprev, hdata]

/-- A preview (editing) context carrying a preview-data token. -/
def ctxPreview : NextContext :=
  { preview := true, previewData := some "token", params := none, locale := none,
    req := none, res := none }

theorem create_preview_missing_editing_data_witness :
    ctxPreview.preview = true ∧
    svc401.getEditingData ctxPreview.previewData = none ∧
    (create svc401 ctxPreview).result =
      Except.error (CreateError.editingDataMissing (some "token")) :=
  ⟨rfl, rfl, create_preview_missing_editing_data svc401 ctxPreview rfl rfl⟩

/-- Claim C5: in normal mode, a layout-fetch error whose status is neither
404 nor 401 (including errors carrying no status) is rethrown unchanged: the
call rejects with exactly that error. -/
theorem create_propagates_unclassified_errors (svc : Services) (context : NextContext)
    (e : LayoutError)
    (hprev : context.preview = false)
    (hcall : layoutCallOf svc context = Except.error e)
    (h404 : e.status ≠ some 404) (h401 : e.status ≠ some 401) :
    (create svc context).result = Except.error (CreateError.layoutError e) := by
  simp [create, hprev, hcall, h404, h401]

/-- A service bundle whose layout fetch fails with an error carrying no
HTTP response status. -/
def svcNetworkError : Services :=
  { svc401 with
    fetchLayoutData := fun _ _ _ _ _ =>
      Except.error { status := none, message := "ECONNREFUSED" } }

theorem create_propagates_unclassified_errors_witness :
    ctx401.preview = false ∧
    layoutCallOf svcNetworkError ctx401 =
      Except.error { status := none, message := "ECONNREFUSED" } ∧
    (create svcNetworkError ctx401).result =
      Except.error (CreateError.layoutError { status := none, message := "ECONNREFUSED" }) :=
  ⟨rfl, rfl,
    create_propagates_unclassified_errors svcNetworkError ctx401
      { status := none, message := "ECONNREFUSED" } rfl rfl (by decide) (by decide)⟩

/-- Claim C6: in normal mode, a successful layout fetch whose data contains
no route payload yields `notFound = true` (with a null context and empty
component props). -/
theorem create_routeless_layout_notFound (svc : Services) (context : NextContext)
    (ld : LayoutServiceData)
    (hprev : context.preview = false)
    (hcall : layoutCallOf svc context = Except.ok ld)
    (hroute : ld.sitecore.route = none) :
    (create svc context).result = Except.ok
      { locale := localeOf context,
        dictionary := svc.fetchDictionaryData (localeOf context),
        sitecoreContext := none, componentProps := [],
        notFound := true, unauthorized := false } := by
  simp [create, hprev, hcall, normalFinish, finishCreate, hroute]

/-- A service bundle whose layout fetch succeeds with route-less layout
data. -/
def svcRouteless : Services :=
  { svc401 with
    fetchLayoutData := fun _ _ _ _ _ =>
      Except.ok { sitecore := { route := none, context := [] } } }

theorem create_routeless_layout_notFound_witness :
    ctx401.preview = false ∧
    layoutCallOf svcRouteless ctx401 =
      Except.ok { sitecore := { route := none, context := [] } } ∧
    (create svcRouteless ctx401).result = Except.ok
      { locale := "en", dictionary := [("k", "v")], sitecoreContext := none,
        componentProps := [], notFound := true, unauthorized := false } :=
  ⟨rfl, rfl,
    create_routeless_layout_notFound svcRouteless ctx401
      { sitecore := { route := none, context := [] } } rfl rfl rfl⟩

theorem previewEvents_no_fetch (context : NextContext) :
    Event.fetchServerSidePropsCall ∉ previewEvents context ∧
    Event.fetchStaticPropsCall ∉ previewEvents context ∧
    (∀ l, Event.fetchDictionaryCall l ∉ previewEvents context) ∧
    (∀ q, Event.extractPathCall q ∉ previewEvents context) := by
  refine ⟨by simp [previewEvents], by simp [previewEvents], ?_, ?_⟩ <;>
    intro x <;> simp [previewEvents]

/-- Whenever the resolution adopts layout data `ld`, `create` is the shared
tail `finishCreate` applied to `some ld`, with an event prefix free of
component-props events. -/
theorem create_eq_finish (svc : Services) (context : NextContext)
    (ld : LayoutServiceData)
    (hld : layoutDataOf svc context = some ld) :
    ∃ locale dictionary notFound unauthorized events,
      create svc context =
        finishCreate svc context locale (some ld) dictionary notFound unauthorized events ∧
      Event.fetchServerSidePropsCall ∉ events ∧
      Event.fetchStaticPropsCall ∉ events := by
  unfold layoutDataOf at hld
  cases hprev : context.preview with
  | true =>
    rw [hprev, if_pos rfl] at hld
    cases hdata : svc.getEditingData context.previewData with
    | none => rw [hdata] at hld; simp at hld
    | some d =>
      rw [hdata] at hld
      simp only [Option.map_some'] at hld
      have hdl : d.layoutData = ld := Option.some.inj hld
      refine ⟨d.language, d.dictionary, false, false, previewEvents context, ?_,
        (previewEvents_no_fetch context).1, (previewEvents_no_fetch context).2.1⟩
      simp [create, hprev, hdata, hdl]
  | false =>
    rw [hprev] at hld
    simp only [Bool.false_eq_true, if_false] at hld
    cases hcall : layoutCallOf svc context with
    | error e => rw [hcall] at hld; simp at hld
    | ok ld' =>
      rw [hcall] at hld
      have hdl : ld' = ld := Option.some.inj hld
      subst hdl
      refine ⟨localeOf context, svc.fetchDictionaryData (localeOf context),
        false || ld'.sitecore.route.isNone, false,
        normalEvents svc context ++ [Event.fetchDictionaryCall (localeOf context)],
        ?_, ?_, ?_⟩
      · simp [create, hprev, hcall, normalFinish]
      · simp [normalEvents]
      · simp [normalEvents]

/-- Claim C7: whenever the adopted layout data carries a route payload, the
returned `sitecoreContext` is `{route: <route payload>, itemId:
<route itemId>, ...<auxiliary context bag>}` with the auxiliary bag spread
last, so an auxiliary bag entry named `route` or `itemId` (its last
occurrence) overwrites those two fields. -/
theorem create_merge_order (svc : Services) (context : NextContext)
    (ld : LayoutServiceData) (route : RouteData)
    (hld : layoutDataOf svc context = some ld)
    (hroute : ld.sitecore.route = some route) :
    (∃ r, (create svc context).result = Except.ok r ∧
      r.sitecoreContext = some (buildSitecoreContext route ld.sitecore.context)) ∧
    (∀ v, getKey "route" ld.sitecore.context.reverse = some v →
      getKey "route" (buildSitecoreContext route ld.sitecore.context) = some v) ∧
    (∀ v, getKey "itemId" ld.sitecore.context.reverse = some v →
      getKey "itemId" (buildSitecoreContext route ld.sitecore.context) = some v) := by
  refine ⟨?_, ?_, ?_⟩
  · obtain ⟨locale, dictionary, notFound, unauthorized, events, heq, _, _⟩ :=
      create_eq_finish svc context ld hld
    rw [heq]
    cases hssr : isServerSidePropsContext context with
    | true =>
      rw [finishCreate_ssr _ _ _ _ _ _ _ _ _ hroute hssr]
      exact ⟨_, rfl, rfl⟩
    | false =>
      rw [finishCreate_ssg _ _ _ _ _ _ _ _ _ hroute hssr]
      exact ⟨_, rfl, rfl⟩
  · intro v hv
    unfold buildSitecoreContext
    rw [getKey_spreadObj, hv]
  · intro v hv
    unfold buildSitecoreContext
    rw [getKey_spreadObj, hv]

/-- A route payload with an item id. -/
def mergeRoute : RouteData := { itemId := some "id1", name := "home" }

/-- An auxiliary context bag that itself contains `route` and `itemId`. -/
def mergeAux : JsObject := [("route", JsValue.vStr "shadow"), ("itemId", JsValue.vNat 7)]

/-- Layout data with a route payload and the shadowing auxiliary bag. -/
def mergeLd : LayoutServiceData :=
  { sitecore := { route := some mergeRoute, context := mergeAux } }

/-- A service bundle whose layout fetch succeeds with `mergeLd`. -/
def svcMerge : Services :=
  { svc401 with fetchLayoutData := fun _ _ _ _ _ => Except.ok mergeLd }

theorem create_merge_order_witness :
    layoutDataOf svcMerge ctx401 = some mergeLd ∧
    mergeLd.sitecore.route = some mergeRoute ∧
    getKey "route" (buildSitecoreContext mergeRoute mergeLd.sitecore.context) =
      some (JsValue.vStr "shadow") ∧
    getKey "itemId" (buildSitecoreContext mergeRoute mergeLd.sitecore.context) =
      some (JsValue.vNat 7) := by
  have h := create_merge_order svcMerge ctx401 mergeLd mergeRoute (by decide) rfl
  exact ⟨by decide, rfl, h.2.1 (JsValue.vStr "shadow") (by decide),
    h.2.2 (JsValue.vNat 7) (by decide)⟩

/-- Claim C8: in preview mode with editing data present, the result adopts the
editing data's language and dictionary verbatim, the adopted layout data is
the editing data's `layoutData`, and the trace contains no dictionary-service
fetch and no path extraction. -/
theorem create_preview_adopts_editing_data (svc : Services) (context : NextContext)
    (data : EditingData)
    (hprev : context.preview = true)
    (hdata : svc.getEditingData context.previewData = some data) :
    (∃ r, (create svc context).result = Except.ok r ∧
      r.locale = data.language ∧ r.dictionary = data.dictionary) ∧
    layoutDataOf svc context = some data.layoutData ∧
    (∀ l, Event.fetchDictionaryCall l ∉ (create svc context).events) ∧
    (∀ q, Event.extractPathCall q ∉ (create svc context).events) := by
  have hcr : create svc context =
      finishCreate svc context data.language (some data.layoutData) data.dictionary
        false false (previewEvents context) := by
    simp [create, hprev, hdata]
  refine ⟨?_, ?_, ?_, ?_⟩
  · rw [hcr]
    cases hroute : data.layoutData.sitecore.route with
    | none =>
      rw [finishCreate_noroute _ _ _ _ _ _ _ _ hroute]
      exact ⟨_, rfl, rfl, rfl⟩
    | some route =>
      cases hssr : isServerSidePropsContext context with
      | true =>
        rw [finishCreate_ssr _ _ _ _ _ _ _ _ _ hroute hssr]
        exact ⟨_, rfl, rfl, rfl⟩
      | false =>
        rw [finishCreate_ssg _ _ _ _ _ _ _ _ _ hroute hssr]
        exact ⟨_, rfl, rfl, rfl⟩
  · simp [layoutDataOf, hprev, hdata]
  · intro l
    rw [hcr]
    cases hroute : data.layoutData.sitecore.route with
    | none =>
      rw [finishCreate_noroute _ _ _ _ _ _ _ _ hroute]
      simp [previewEvents]
    | some route =>
      cases hssr : isServerSidePropsContext context with
      | true =>
        rw [finishCreate_ssr _ _ _ _ _ _ _ _ _ hroute hssr]
        simp [previewEvents]
      | false =>
        rw [finishCreate_ssg _ _ _ _ _ _ _ _ _ hroute hssr]
        simp [previewEvents]
  · intro q
    rw [hcr]
    cases hroute : data.layoutData.sitecore.route with
    | none =>
      rw [finishCreate_noroute _ _ _ _ _ _ _ _ hroute]
      simp [previewEvents]
    | some route =>
      cases hssr : isServerSidePropsContext context with
      | true =>
        rw [finishCreate_ssr _ _ _ _ _ _ _ _ _ hroute hssr]
        simp [previewEvents]
      | false =>
        rw [finishCreate_ssg _ _ _ _ _ _ _ _ _ hroute hssr]
        simp [previewEvents]

/-- Editing data used for the preview witnesses. -/
def witEditingData : EditingData :=
  { language := "da", layoutData := mergeLd, dictionary := [("hello", "hej")] }

/-- A service bundle whose editing-data lookup succeeds. -/
def svcEditing : Services :=
  { svc401 with getEditingData := fun _ => some witEditingData }

theorem create_preview_adopts_editing_data_witness :
    ctxPreview.preview = true ∧
    svcEditing.getEditingData ctxPreview.previewData = some witEditingData ∧
    layoutDataOf svcEditing ctxPreview = some witEditingData.layoutData ∧
    Event.fetchDictionaryCall "da" ∉ (create svcEditing ctxPreview).events := by
  have h := create_preview_adopts_editing_data svcEditing ctxPreview witEditingData rfl rfl
  exact ⟨rfl, rfl, h.2.1, h.2.2.1 "da"⟩

/-- Claim C9: whenever a context payload is constructed (adopted layout data
has a route), component props come from exactly one of the two fetch paths,
chosen by `isServerSidePropsContext` alone (the preview/normal branching does
not enter the choice). -/
theorem create_component_props_path (svc : Services) (context : NextContext)
    (ld : LayoutServiceData) (route : RouteData)
    (hld : layoutDataOf svc context = some ld)
    (hroute : ld.sitecore.route = some route) :
    (isServerSidePropsContext context = true →
      ∃ r, (create svc context).result = Except.ok r ∧
        r.componentProps = svc.fetchServerSideComponentProps ld context ∧
        Event.fetchServerSidePropsCall ∈ (create svc context).events ∧
        Event.fetchStaticPropsCall ∉ (create svc context).events) ∧
    (isServerSidePropsContext context = false →
      ∃ r, (create svc context).result = Except.ok r ∧
        r.componentProps = svc.fetchStaticComponentProps ld context ∧
        Event.fetchStaticPropsCall ∈ (create svc context).events ∧
        Event.fetchServerSidePropsCall ∉ (create svc context).events) := by
  obtain ⟨locale, dictionary, notFound, unauthorized, events, heq, hs, ht⟩ :=
    create_eq_finish svc context ld hld
  constructor
  · intro hssr
    rw [heq, finishCreate_ssr _ _ _ _ _ _ _ _ _ hroute hssr]
    refine ⟨_, rfl, rfl, by simp, ?_⟩
    simp only [List.mem_append, List.mem_singleton]
    rintro (h | h)
    · exact ht h
    · exact Event.noConfusion h
  · intro hssr
    rw [heq, finishCreate_ssg _ _ _ _ _ _ _ _ _ hroute hssr]
    refine ⟨_, rfl, rfl, by simp, ?_⟩
    simp only [List.mem_append, List.mem_singleton]
    rintro (h | h)
    · exact hs h
    · exact Event.noConfusion h

/-- A server-side (request-time) normal-mode context. -/
def ctxSsr : NextContext :=
  { preview := false, previewData := none, params := none, locale := some "en",
    req := some 1, res := some 2 }

theorem create_component_props_path_witness :
    layoutDataOf svcMerge ctxSsr = some mergeLd ∧
    mergeLd.sitecore.route = some mergeRoute ∧
    isServerSidePropsContext ctxSsr = true ∧
    Event.fetchServerSidePropsCall ∈ (create svcMerge ctxSsr).events ∧
    Event.fetchStaticPropsCall ∉ (create svcMerge ctxSsr).events := by
  have h := (create_component_props_path svcMerge ctxSsr mergeLd mergeRoute
    (by decide) rfl).1 rfl
  obtain ⟨r, _, _, hmem, hnot⟩ := h
  exact ⟨by decide, rfl, rfl, hmem, hnot⟩

/-- Claim C10: whenever `create` returns a result whose `sitecoreContext` is
null, the returned `componentProps` is the empty mapping and neither
component-props fetch path was invoked. -/
theorem create_null_context_empty_props (svc : Services) (context : NextContext)
    (r : SitecorePageProps)
    (hok : (create svc context).result = Except.ok r)
    (hctx : r.sitecoreContext = none) :
    r.componentProps = [] ∧
    Event.fetchServerSidePropsCall ∉ (create svc context).events ∧
    Event.fetchStaticPropsCall ∉ (create svc context).events := by
  cases hprev : context.preview with
  | true =>
    cases hdata : svc.getEditingData context.previewData with
    | none =>
      have : (create svc context).result =
          Except.error (CreateError.editingDataMissing context.previewData) := by
        simp [create, hprev, hdata]
      rw [this] at hok
      exact absurd hok (by simp)
    | some d =>
      have hcr : create svc context =
          finishCreate svc context d.language (some d.layoutData) d.dictionary
            false false (previewEvents context) := by
        simp [create, hprev, hdata]
      rw [hcr] at hok ⊢
      cases hroute : d.layoutData.sitecore.route with
      | some route =>
        cases hssr : isServerSidePropsContext context with
        | true =>
          rw [finishCreate_ssr _ _ _ _ _ _ _ _ _ hroute hssr] at hok
          simp only [Except.ok.injEq] at hok
          subst hok
          simp at hctx
        | false =>
          rw [finishCreate_ssg _ _ _ _ _ _ _ _ _ hroute hssr] at hok
          simp only [Except.ok.injEq] at hok
          subst hok
          simp at hctx
      | none =>
        rw [finishCreate_noroute _ _ _ _ _ _ _ _ hroute] at hok ⊢
        simp only [Except.ok.injEq] at hok
        subst hok
        refine ⟨rfl, ?_, ?_⟩ <;> simp [previewEvents]
  | false =>
    cases hcall : layoutCallOf svc context with
    | error e =>
      by_cases h404 : e.status = some 404
      · have hcr : create svc context =
            normalFinish svc context (localeOf context) none true false
              (normalEvents svc context) := by
          simp [create, hprev, hcall, h404]
        rw [hcr] at hok ⊢
        rw [show normalFinish svc context (localeOf context) none true false
              (normalEvents svc context) =
            finishCreate svc context (localeOf context) none
              (svc.fetchDictionaryData (localeOf context)) true false
              (normalEvents svc context ++
                [Event.fetchDictionaryCall (localeOf context)]) from by
          simp [normalFinish]] at hok ⊢
        rw [finishCreate_none] at hok ⊢
        simp only [Except.ok.injEq] at hok
        subst hok
        refine ⟨rfl, ?_, ?_⟩ <;> simp [normalEvents]
      · by_cases h401 : e.status = some 401
        · have hcr : create svc context =
              normalFinish svc context (localeOf context) none false true
                (normalEvents svc context) := by
            simp [create, hprev, hcall, h404, h401]
          rw [hcr] at hok ⊢
          rw [show normalFinish svc context (localeOf context) none false true
                (normalEvents svc context) =
              finishCreate svc context (localeOf context) none
                (svc.fetchDictionaryData (localeOf context)) true true
                (normalEvents svc context ++
                  [Event.fetchDictionaryCall (localeOf context)]) from by
            simp [normalFinish]] at hok ⊢
          rw [finishCreate_none] at hok ⊢
          simp only [Except.ok.injEq] at hok
          subst hok
          refine ⟨rfl, ?_, ?_⟩ <;> simp [normalEvents]
        · have : (create svc context).result =
              Except.error (CreateError.layoutError e) := by
            simp [create, hprev, hcall, h404, h401]
          rw [this] at hok
          exact absurd hok (by simp)
    | ok ld =>
      have hcr : create svc context =
          normalFinish svc context (localeOf context) (some ld) false false
            (normalEvents svc context) := by
        simp [create, hprev, hcall]
      rw [hcr] at hok ⊢
      rw [show normalFinish svc context (localeOf context) (some ld) false false
            (normalEvents svc context) =
          finishCreate svc context (localeOf context) (some ld)
            (svc.fetchDictionaryData (localeOf context))
            (false || ld.sitecore.route.isNone) false
            (normalEvents svc context ++
              [Event.fetchDictionaryCall (localeOf context)]) from by
        simp [normalFinish]] at hok ⊢
      cases hroute : ld.sitecore.route with
      | some route =>
        cases hssr : isServerSidePropsContext context with
        | true =>
          rw [finishCreate_ssr _ _ _ _ _ _ _ _ _ hroute hssr] at hok
          simp only [Except.ok.injEq] at hok
          subst hok
          simp at hctx
        | false =>
          rw [finishCreate_ssg _ _ _ _ _ _ _ _ _ hroute hssr] at hok
          simp only [Except.ok.injEq] at hok
          subst hok
          simp at hctx
      | none =>
        rw [finishCreate_noroute _ _ _ _ _ _ _ _ hroute] at hok ⊢
        simp only [Except.ok.injEq] at hok
        subst hok
        refine ⟨rfl, ?_, ?_⟩ <;> simp [normalEvents]

theorem create_null_context_empty_props_witness :
    (create svc404 ctx401).result = Except.ok
      { locale := "en", dictionary := [("k", "v")], sitecoreContext := none,
        componentProps := [], notFound := true, unauthorized := false } ∧
    Event.fetchServerSidePropsCall ∉ (create svc404 ctx401).events ∧
    Event.fetchStaticPropsCall ∉ (create svc404 ctx401).events := by
  have h := create_null_context_empty_props svc404 ctx401
    { locale := "en", dictionary := [("k", "v")], sitecoreContext := none,
      componentProps := [], notFound := true, unauthorized := false }
    (by decide) rfl
  exact ⟨by decide, h.2.1, h.2.2⟩

end SitecoreJss
